import Mathlib

/-!
# Verification of the Buckwheat capture-and-encode core

Shallow embedding of the recorder subsystem of the repository
(`src-tauri/src/recorder/mod.rs`, `src-tauri/src/recorder/windows_v2.rs`,
`src-tauri/src/commands/errors.rs`) together with proofs of the spec's
testable properties.

Modelling conventions:
* Rust `u32` / `u64` values are modelled as `Nat`; all arithmetic that the
  source performs stays within range, so no wrap-around modelling is needed.
* The `f64` arithmetic inside `RecordingQuality::scale_dimensions` is
  modelled over `ℚ` with exact division and `Int.floor` for the `as u32`
  truncation (all intermediate values are nonnegative and far below the
  rounding thresholds that would make `f64` diverge from exact arithmetic
  on the stated properties: the scale factor is `min`-clamped to `1`, and
  round-to-nearest is monotone with integers exactly representable).
* Rust `String`s are modelled as `List Char`; byte indices produced by
  `rfind` are modelled as character indices, which denote the same
  substrings because the search pattern is pure ASCII.
* Platform calls (window enumeration, primary-monitor lookup, window
  measurement) are inputs of the embedded functions: each `Result` the
  platform can produce is a parameter of type `Except`.
-/

namespace Buckwheat

/-! ## QualityPolicy — `RecordingQuality` (recorder/mod.rs) -/

/-- `enum RecordingQuality { Low, Medium, High, Ultra }`. -/
inductive RecordingQuality where
  | Low
  | Medium
  | High
  | Ultra
  deriving DecidableEq, Repr

/-- `RecordingQuality::bitrate` — bits per second for each tier. -/
def RecordingQuality.bitrate : RecordingQuality → Nat
  | .Low => 2000000
  | .Medium => 8000000
  | .High => 18000000
  | .Ultra => 35000000

/-- `RecordingQuality::target_resolution` — `None` for Ultra (native). -/
def RecordingQuality.target_resolution : RecordingQuality → Option (Nat × Nat)
  | .Low => some (640, 360)
  | .Medium => some (1280, 720)
  | .High => some (1920, 1080)
  | .Ultra => none

/-- `scale = scale_w.min(scale_h).min(1.0)` of
`RecordingQuality::scale_dimensions`, where
`scale_w = target_w / source_width` and `scale_h = target_h / source_height`
(exact rational arithmetic in place of `f64`). -/
def scaleFactor (target_w target_h source_width source_height : Nat) : ℚ :=
  min (min ((target_w : ℚ) / (source_width : ℚ))
           ((target_h : ℚ) / (source_height : ℚ))) 1

/-- The `Some((target_w, target_h))` branch of
`RecordingQuality::scale_dimensions` with the source's `let` chain inlined:
`new_width = (source_width as f64 * scale) as u32`, rounded down to even via
`(new_width / 2) * 2`, then `max`-clamped to the 320×240 floor.  `as u32` on a
nonnegative value is `Int.floor` followed by `Int.toNat`. -/
def scaleWithTarget (target_w target_h source_width source_height : Nat) :
    Nat × Nat :=
  (max (((⌊(source_width : ℚ) *
        scaleFactor target_w target_h source_width source_height⌋).toNat / 2)
      * 2) 320,
   max (((⌊(source_height : ℚ) *
        scaleFactor target_w target_h source_width source_height⌋).toNat / 2)
      * 2) 240)

/-- `RecordingQuality::scale_dimensions` — aspect-preserving scaling with
even rounding and a 320×240 floor. -/
def RecordingQuality.scale_dimensions (q : RecordingQuality)
    (source_width source_height : Nat) : Nat × Nat :=
  match q.target_resolution with
  | some (target_w, target_h) =>
      scaleWithTarget target_w target_h source_width source_height
  | none =>
      let w := (source_width / 2) * 2
      let h := (source_height / 2) * 2
      (max w 320, max h 240)

/-- Spec-side formulation used by C9: "rounded down to the nearest even
integer". -/
def roundDownEven (n : Nat) : Nat :=
  if n % 2 = 0 then n else n - 1

lemma div2_mul2_eq_roundDownEven (n : Nat) : (n / 2) * 2 = roundDownEven n := by
  have h := Nat.div_add_mod n 2
  have h2 : n % 2 = 0 ∨ n % 2 = 1 := Nat.mod_two_eq_zero_or_one n
  unfold roundDownEven
  split <;> omega

lemma floor_mul_scale_le (w : Nat) (s : ℚ) (hs : s ≤ 1) :
    (⌊(w : ℚ) * s⌋).toNat ≤ w := by
  have h1 : (w : ℚ) * s ≤ (w : ℚ) := by
    calc (w : ℚ) * s ≤ (w : ℚ) * 1 := by
          exact mul_le_mul_of_nonneg_left hs (by positivity)
      _ = (w : ℚ) := mul_one _
  have h2 : ⌊(w : ℚ) * s⌋ ≤ (w : ℤ) := by
    have h3 := Int.floor_mono h1
    rwa [Int.floor_natCast] at h3
  exact Int.toNat_le.mpr h2

lemma scaleWithTarget_bounds (tw th w h : Nat) :
    (scaleWithTarget tw th w h).1 % 2 = 0 ∧
    (scaleWithTarget tw th w h).2 % 2 = 0 ∧
    320 ≤ (scaleWithTarget tw th w h).1 ∧
    240 ≤ (scaleWithTarget tw th w h).2 ∧
    (320 ≤ w → (scaleWithTarget tw th w h).1 ≤ w) ∧
    (240 ≤ h → (scaleWithTarget tw th w h).2 ≤ h) := by
  have hs1 : scaleFactor tw th w h ≤ 1 := min_le_right _ _
  have hwle := floor_mul_scale_le w _ hs1
  have hhle := floor_mul_scale_le h _ hs1
  have hwd : ((⌊(w : ℚ) * scaleFactor tw th w h⌋).toNat / 2) * 2 ≤ w :=
    le_trans (Nat.div_mul_le_self _ _) hwle
  have hhd : ((⌊(h : ℚ) * scaleFactor tw th w h⌋).toNat / 2) * 2 ≤ h :=
    le_trans (Nat.div_mul_le_self _ _) hhle
  have hwm : ((⌊(w : ℚ) * scaleFactor tw th w h⌋).toNat / 2) * 2 % 2 = 0 :=
    Nat.mul_mod_left _ _
  have hhm : ((⌊(h : ℚ) * scaleFactor tw th w h⌋).toNat / 2) * 2 % 2 = 0 :=
    Nat.mul_mod_left _ _
  unfold scaleWithTarget
  refine ⟨by omega, by omega, by omega, by omega,
    fun hw => by omega, fun hh => by omega⟩

/-- C2 (counterexample): as stated, the claim is false — for a 1×1 source the
320×240 floor makes both returned dimensions exceed the source dimensions:
`scale_dimensions(Low, 1, 1) = (320, 240)` and `320 ≤ 1` fails. -/
theorem scale_dimensions_exceeds_tiny_source :
    RecordingQuality.Low.scale_dimensions 1 1 = (320, 240) ∧
    ¬ (RecordingQuality.Low.scale_dimensions 1 1).1 ≤ 1 := by
  refine ⟨?_, ?_⟩ <;>
    simp only [RecordingQuality.scale_dimensions,
      RecordingQuality.target_resolution, scaleWithTarget, scaleFactor] <;>
    norm_num

/-- C2 (amended): for every quality tier and every source with
`source_w, source_h ≥ 1`, `scale_dimensions` returns even dimensions at
least (320, 240); and whenever a source dimension is at least the
corresponding floor value (320 for width, 240 for height) the returned
dimension does not exceed it. -/
theorem scale_dimensions_even_floor_bounds (q : RecordingQuality)
    (w h : Nat) (hw : 1 ≤ w) (hh : 1 ≤ h) :
    (q.scale_dimensions w h).1 % 2 = 0 ∧
    (q.scale_dimensions w h).2 % 2 = 0 ∧
    320 ≤ (q.scale_dimensions w h).1 ∧
    240 ≤ (q.scale_dimensions w h).2 ∧
    (320 ≤ w → (q.scale_dimensions w h).1 ≤ w) ∧
    (240 ≤ h → (q.scale_dimensions w h).2 ≤ h) := by
  cases q <;>
    simp only [RecordingQuality.scale_dimensions,
      RecordingQuality.target_resolution]
  case Low => exact scaleWithTarget_bounds 640 360 w h
  case Medium => exact scaleWithTarget_bounds 1280 720 w h
  case High => exact scaleWithTarget_bounds 1920 1080 w h
  case Ultra =>
    refine ⟨by omega, by omega, by omega, by omega,
      fun hw2 => by omega, fun hh2 => by omega⟩

/-- Witness for C2's amended theorem at the concrete source 1920×1080. -/
theorem scale_dimensions_even_floor_bounds_witness :
    (1 ≤ 1920 ∧ 1 ≤ 1080) ∧
    ((RecordingQuality.Medium.scale_dimensions 1920 1080).1 % 2 = 0 ∧
     (RecordingQuality.Medium.scale_dimensions 1920 1080).2 % 2 = 0 ∧
     320 ≤ (RecordingQuality.Medium.scale_dimensions 1920 1080).1 ∧
     240 ≤ (RecordingQuality.Medium.scale_dimensions 1920 1080).2 ∧
     (320 ≤ 1920 → (RecordingQuality.Medium.scale_dimensions 1920 1080).1 ≤ 1920) ∧
     (240 ≤ 1080 → (RecordingQuality.Medium.scale_dimensions 1920 1080).2 ≤ 1080)) :=
  ⟨⟨by norm_num, by norm_num⟩,
    scale_dimensions_even_floor_bounds RecordingQuality.Medium 1920 1080
      (by norm_num) (by norm_num)⟩

/-- C9: for Ultra quality, `scale_dimensions` is each dimension rounded down
to the nearest even integer, clamped up to the 320×240 floor. -/
theorem scale_dimensions_ultra_rounds_down_even (w h : Nat)
    (hw : 1 ≤ w) (hh : 1 ≤ h) :
    RecordingQuality.Ultra.scale_dimensions w h =
      (max (roundDownEven w) 320, max (roundDownEven h) 240) := by
  simp only [RecordingQuality.scale_dimensions,
    RecordingQuality.target_resolution]
  rw [div2_mul2_eq_roundDownEven, div2_mul2_eq_roundDownEven]

/-- Witness for C9's theorem at the odd source 1281×719. -/
theorem scale_dimensions_ultra_rounds_down_even_witness :
    (1 ≤ 1281 ∧ 1 ≤ 719) ∧
    RecordingQuality.Ultra.scale_dimensions 1281 719 =
      (max (roundDownEven 1281) 320, max (roundDownEven 719) 240) :=
  ⟨⟨by norm_num, by norm_num⟩,
    scale_dimensions_ultra_rounds_down_even 1281 719 (by norm_num) (by norm_num)⟩

/-! ## CaptureSession — `FrameHandler` (windows_v2.rs)

The frame handler is modelled as a state machine driven by a trace of
session events: audio-callback channel sends, frame arrivals, the stop
request issued by `stop_recording`, and the platform's `on_closed`
notification.  Trace positions stand in for wall-clock instants, so the
`Option<Instant>` field `start_time` holds the trace position of the first
processed frame, and each audio buffer is tagged with the trace position at
which the cpal callback sent it into the `mpsc` channel.  The observable
behaviour is the list of calls issued to the `VideoEncoder`. -/

/-- `struct EncoderConfig` — data kept for deferred encoder creation. -/
structure EncoderConfig where
  output_path : List Char
  enable_audio : Bool
  bitrate : Nat
  deriving DecidableEq, Repr

/-- The parameters a live `VideoEncoder` was constructed with
(`VideoSettingsBuilder::new(width, height)` + bitrate, audio settings and
output path). -/
structure EncoderSettings where
  width : Nat
  height : Nat
  bitrate : Nat
  enable_audio : Bool
  output_path : List Char
  deriving DecidableEq, Repr

/-- `struct CaptureState` (the mutex-guarded shared state).  The
`Option<mpsc::Receiver<Vec<u8>>>` is modelled as the FIFO queue of buffers
currently sitting in the channel, each paired with its send position. -/
structure CaptureState where
  stop_requested : Bool
  frame_count : Nat
  start_time : Option Nat
  audio_receiver : Option (List (Nat × List Nat))
  deriving DecidableEq, Repr

/-- `struct FrameHandler` — the encoder slot plus the deferred config.
(The `Arc<Mutex<CaptureState>>` field is threaded separately.) -/
structure FrameHandler where
  encoder : Option EncoderSettings
  encoder_config : Option EncoderConfig
  deriving DecidableEq, Repr

/-- `struct CaptureFlags` (minus the shared-state handle). -/
structure CaptureFlags where
  width : Nat
  height : Nat
  output_path : List Char
  enable_audio : Bool
  bitrate : Nat
  use_frame_dimensions : Bool
  deriving DecidableEq, Repr

/-- Calls issued to the encoder backend.  `send_audio_buffer` records the
drained buffers (whose concatenation is the byte payload the source passes),
keeping each buffer's channel-send position for the ordering properties. -/
inductive EncoderCall where
  | create (settings : EncoderSettings)
  | send_frame (width height : Nat)
  | send_audio_buffer (buffers : List (Nat × List Nat))
  | finish
  deriving DecidableEq, Repr

/-- Events driving one capture session. -/
inductive SessionEvent where
  | audio (buffer : List Nat)
  | frame (width height : Nat)
  | stop
  | closed
  deriving DecidableEq, Repr

/-- `FrameHandler::new` — deferred mode stores only the `EncoderConfig`;
immediate mode builds the encoder with the flag dimensions right away. -/
def FrameHandler.new (flags : CaptureFlags) : FrameHandler :=
  if flags.use_frame_dimensions then
    { encoder := none,
      encoder_config := some
        { output_path := flags.output_path,
          enable_audio := flags.enable_audio,
          bitrate := flags.bitrate } }
  else
    { encoder := some
        { width := flags.width, height := flags.height,
          bitrate := flags.bitrate, enable_audio := flags.enable_audio,
          output_path := flags.output_path },
      encoder_config := none }

/-- `FrameHandler::on_frame_arrived`.  Returns the updated handler, the
updated shared state and the encoder calls performed, in program order.
`capture_control.stop()` is modelled by simply allowing (harmlessly) further
events; `VideoEncoder::new` is modelled as succeeding (its failure path
stops the capture without further encoder calls, which none of the verified
properties depend on). -/
def onFrameArrived (h : FrameHandler) (s : CaptureState)
    (pos width height : Nat) :
    FrameHandler × CaptureState × List EncoderCall :=
  if s.stop_requested then
    match h.encoder with
    | some _ => ({ h with encoder := none }, s, [EncoderCall.finish])
    | none => (h, s, [])
  else
    let is_first_frame := s.start_time.isNone
    let hc : FrameHandler × List EncoderCall :=
      if is_first_frame then
        match h.encoder, h.encoder_config with
        | none, some config =>
            let settings : EncoderSettings :=
              { width := width, height := height, bitrate := config.bitrate,
                enable_audio := config.enable_audio,
                output_path := config.output_path }
            ({ encoder := some settings, encoder_config := none },
             [EncoderCall.create settings])
        | e, c => ({ encoder := e, encoder_config := c }, [])
      else (h, [])
    let s1 : CaptureState :=
      if is_first_frame then
        { s with start_time := some pos,
                 audio_receiver :=
                   s.audio_receiver.map (fun _ => ([] : List (Nat × List Nat))) }
      else s
    let audio_data : List (Nat × List Nat) :=
      if is_first_frame then [] else s1.audio_receiver.getD []
    let s2 : CaptureState :=
      { s1 with frame_count := s1.frame_count + 1,
                audio_receiver :=
                  s1.audio_receiver.map (fun _ => ([] : List (Nat × List Nat))) }
    let sends : List EncoderCall :=
      match hc.1.encoder with
      | some _ =>
          EncoderCall.send_frame width height ::
            (if audio_data.isEmpty then [] else
              [EncoderCall.send_audio_buffer audio_data])
      | none => []
    (hc.1, s2, hc.2 ++ sends)

/-- `FrameHandler::on_closed` — finish the encoder if it is still open. -/
def onClosed (h : FrameHandler) : FrameHandler × List EncoderCall :=
  match h.encoder with
  | some _ => ({ h with encoder := none }, [EncoderCall.finish])
  | none => (h, [])

/-- The cpal audio callback: `sender.send(pcm_data)` appends one tagged
buffer to the channel (a no-op when audio capture never started). -/
def onAudioBuffer (s : CaptureState) (pos : Nat) (buffer : List Nat) :
    CaptureState :=
  { s with audio_receiver := s.audio_receiver.map (fun q => q ++ [(pos, buffer)]) }

/-- `stop_recording`'s effect on the shared state: `stop_requested = true`
(never reset afterwards). -/
def requestStop (s : CaptureState) : CaptureState :=
  { s with stop_requested := true }

/-- One session event. -/
def stepEvent (h : FrameHandler) (s : CaptureState) (pos : Nat) :
    SessionEvent → FrameHandler × CaptureState × List EncoderCall
  | SessionEvent.audio buf => (h, onAudioBuffer s pos buf, [])
  | SessionEvent.frame w hh => onFrameArrived h s pos w hh
  | SessionEvent.stop => (h, requestStop s, [])
  | SessionEvent.closed =>
      let r := onClosed h
      (r.1, s, r.2)

/-- Run the handler over a trace starting at position `pos`, collecting the
encoder calls in order. -/
def runSessionAux (h : FrameHandler) (s : CaptureState) (pos : Nat) :
    List SessionEvent → List EncoderCall
  | [] => []
  | e :: rest =>
      let r := stepEvent h s pos e
      r.2.2 ++ runSessionAux r.1 r.2.1 (pos + 1) rest

/-- The shared state as `start_recording` builds it. -/
def initialCaptureState (audio_started : Bool) : CaptureState :=
  { stop_requested := false, frame_count := 0, start_time := none,
    audio_receiver := if audio_started then some [] else none }

/-- A whole capture session: handler construction from the flags, then the
event trace from position 0. -/
def runSession (flags : CaptureFlags) (events : List SessionEvent) :
    List EncoderCall :=
  runSessionAux (FrameHandler.new flags)
    (initialCaptureState flags.enable_audio) 0 events

/-- The settings of all `create` calls, in order. -/
def createsOf : List EncoderCall → List EncoderSettings
  | [] => []
  | EncoderCall.create st :: rest => st :: createsOf rest
  | _ :: rest => createsOf rest

/-- The buffer lists of all `send_audio_buffer` calls, in order. -/
def audioSendsOf : List EncoderCall → List (List (Nat × List Nat))
  | [] => []
  | EncoderCall.send_audio_buffer bufs :: rest => bufs :: audioSendsOf rest
  | _ :: rest => audioSendsOf rest

/-- Number of `finish` calls. -/
def finishCountOf : List EncoderCall → Nat
  | [] => 0
  | EncoderCall.finish :: rest => finishCountOf rest + 1
  | _ :: rest => finishCountOf rest

@[simp] lemma createsOf_nil : createsOf [] = [] := rfl

@[simp] lemma createsOf_create (st : EncoderSettings) (l : List EncoderCall) :
    createsOf (EncoderCall.create st :: l) = st :: createsOf l := rfl

@[simp] lemma createsOf_send_frame (w hh : Nat) (l : List EncoderCall) :
    createsOf (EncoderCall.send_frame w hh :: l) = createsOf l := rfl

@[simp] lemma createsOf_send_audio (b : List (Nat × List Nat))
    (l : List EncoderCall) :
    createsOf (EncoderCall.send_audio_buffer b :: l) = createsOf l := rfl

@[simp] lemma createsOf_finish (l : List EncoderCall) :
    createsOf (EncoderCall.finish :: l) = createsOf l := rfl

@[simp] lemma audioSendsOf_nil : audioSendsOf [] = [] := rfl

@[simp] lemma audioSendsOf_create (st : EncoderSettings)
    (l : List EncoderCall) :
    audioSendsOf (EncoderCall.create st :: l) = audioSendsOf l := rfl

@[simp] lemma audioSendsOf_send_frame (w hh : Nat) (l : List EncoderCall) :
    audioSendsOf (EncoderCall.send_frame w hh :: l) = audioSendsOf l := rfl

@[simp] lemma audioSendsOf_send_audio (b : List (Nat × List Nat))
    (l : List EncoderCall) :
    audioSendsOf (EncoderCall.send_audio_buffer b :: l) =
      b :: audioSendsOf l := rfl

@[simp] lemma audioSendsOf_finish (l : List EncoderCall) :
    audioSendsOf (EncoderCall.finish :: l) = audioSendsOf l := rfl

@[simp] lemma finishCountOf_nil : finishCountOf [] = 0 := rfl

@[simp] lemma finishCountOf_create (st : EncoderSettings)
    (l : List EncoderCall) :
    finishCountOf (EncoderCall.create st :: l) = finishCountOf l := rfl

@[simp] lemma finishCountOf_send_frame (w hh : Nat) (l : List EncoderCall) :
    finishCountOf (EncoderCall.send_frame w hh :: l) = finishCountOf l := rfl

@[simp] lemma finishCountOf_send_audio (b : List (Nat × List Nat))
    (l : List EncoderCall) :
    finishCountOf (EncoderCall.send_audio_buffer b :: l) = finishCountOf l := rfl

@[simp] lemma finishCountOf_finish (l : List EncoderCall) :
    finishCountOf (EncoderCall.finish :: l) = finishCountOf l + 1 := rfl

/-- Position of the first frame event of a trace. -/
def firstFrameIdx : List SessionEvent → Option Nat
  | [] => none
  | SessionEvent.frame _ _ :: _ => some 0
  | _ :: rest => (firstFrameIdx rest).map (· + 1)

/-- Dimensions reported by the first frame event of a trace. -/
def firstFrameDims : List SessionEvent → Option (Nat × Nat)
  | [] => none
  | SessionEvent.frame w h :: _ => some (w, h)
  | _ :: rest => firstFrameDims rest

/-- Whether a stop request precedes the first frame event of a trace. -/
def stopBeforeFirstFrame : List SessionEvent → Bool
  | [] => false
  | SessionEvent.frame _ _ :: _ => false
  | SessionEvent.stop :: _ => true
  | _ :: rest => stopBeforeFirstFrame rest

/-! ### Step-level equations for `onFrameArrived` -/

lemma onFrameArrived_stop_some (h : FrameHandler) (s : CaptureState)
    (pos w hh : Nat) (e : EncoderSettings)
    (hstop : s.stop_requested = true) (henc : h.encoder = some e) :
    onFrameArrived h s pos w hh =
      ({ h with encoder := none }, s, [EncoderCall.finish]) := by
  simp [onFrameArrived, hstop, henc]

lemma onFrameArrived_stop_none (h : FrameHandler) (s : CaptureState)
    (pos w hh : Nat)
    (hstop : s.stop_requested = true) (henc : h.encoder = none) :
    onFrameArrived h s pos w hh = (h, s, []) := by
  simp [onFrameArrived, hstop, henc]

lemma onFrameArrived_later (h : FrameHandler) (s : CaptureState)
    (pos w hh t : Nat)
    (hstop : s.stop_requested = false) (hst : s.start_time = some t) :
    onFrameArrived h s pos w hh =
      (h,
       { s with frame_count := s.frame_count + 1,
                audio_receiver :=
                  s.audio_receiver.map (fun _ => ([] : List (Nat × List Nat))) },
       match h.encoder with
       | some _ =>
           EncoderCall.send_frame w hh ::
             (if (s.audio_receiver.getD []).isEmpty then [] else
               [EncoderCall.send_audio_buffer (s.audio_receiver.getD [])])
       | none => []) := by
  simp [onFrameArrived, hstop, hst]

lemma onFrameArrived_first_create (h : FrameHandler) (s : CaptureState)
    (pos w hh : Nat) (c : EncoderConfig)
    (hstop : s.stop_requested = false) (hst : s.start_time = none)
    (henc : h.encoder = none) (hcfg : h.encoder_config = some c) :
    onFrameArrived h s pos w hh =
      (⟨some { width := w, height := hh, bitrate := c.bitrate,
               enable_audio := c.enable_audio, output_path := c.output_path },
        none⟩,
       { s with start_time := some pos, frame_count := s.frame_count + 1,
                audio_receiver :=
                  s.audio_receiver.map (fun _ => ([] : List (Nat × List Nat))) },
       [EncoderCall.create
          { width := w, height := hh, bitrate := c.bitrate,
            enable_audio := c.enable_audio, output_path := c.output_path },
        EncoderCall.send_frame w hh]) := by
  obtain ⟨enc, cfg⟩ := h
  obtain ⟨st, fc, stt, ar⟩ := s
  cases ar <;> simp_all [onFrameArrived]

lemma onFrameArrived_first_enc (h : FrameHandler) (s : CaptureState)
    (pos w hh : Nat) (e : EncoderSettings)
    (hstop : s.stop_requested = false) (hst : s.start_time = none)
    (henc : h.encoder = some e) :
    onFrameArrived h s pos w hh =
      (h,
       { s with start_time := some pos, frame_count := s.frame_count + 1,
                audio_receiver :=
                  s.audio_receiver.map (fun _ => ([] : List (Nat × List Nat))) },
       [EncoderCall.send_frame w hh]) := by
  obtain ⟨enc, cfg⟩ := h
  obtain ⟨st, fc, stt, ar⟩ := s
  cases ar <;> simp_all [onFrameArrived]

lemma onFrameArrived_first_bare (h : FrameHandler) (s : CaptureState)
    (pos w hh : Nat)
    (hstop : s.stop_requested = false) (hst : s.start_time = none)
    (henc : h.encoder = none) (hcfg : h.encoder_config = none) :
    onFrameArrived h s pos w hh =
      (h,
       { s with start_time := some pos, frame_count := s.frame_count + 1,
                audio_receiver :=
                  s.audio_receiver.map (fun _ => ([] : List (Nat × List Nat))) },
       []) := by
  obtain ⟨enc, cfg⟩ := h
  obtain ⟨st, fc, stt, ar⟩ := s
  cases ar <;> simp_all [onFrameArrived]

/-! ### Session invariants -/

lemma runSessionAux_stopped_encNone (evs : List SessionEvent) :
    ∀ (h : FrameHandler) (s : CaptureState) (pos : Nat),
      s.stop_requested = true → h.encoder = none →
      runSessionAux h s pos evs = [] := by
  induction evs with
  | nil => intro h s pos _ _; rfl
  | cons e rest ih =>
      intro h s pos hstop henc
      cases e with
      | audio buf =>
          simp only [runSessionAux, stepEvent, List.nil_append]
          exact ih h _ _ (by simpa [onAudioBuffer] using hstop) henc
      | frame w hh =>
          simp only [runSessionAux, stepEvent,
            onFrameArrived_stop_none h s pos w hh hstop henc, List.nil_append]
          exact ih h s _ hstop henc
      | stop =>
          simp only [runSessionAux, stepEvent, List.nil_append]
          exact ih h _ _ (by simp [requestStop]) henc
      | closed =>
          simp only [runSessionAux, stepEvent, onClosed, henc, List.nil_append]
          exact ih h s _ hstop henc

lemma runSessionAux_stopped (evs : List SessionEvent) :
    ∀ (h : FrameHandler) (s : CaptureState) (pos : Nat),
      s.stop_requested = true →
      runSessionAux h s pos evs = [] ∨
      runSessionAux h s pos evs = [EncoderCall.finish] := by
  induction evs with
  | nil => intro h s pos _; left; rfl
  | cons e rest ih =>
      intro h s pos hstop
      cases e with
      | audio buf =>
          simp only [runSessionAux, stepEvent, List.nil_append]
          exact ih h _ _ (by simpa [onAudioBuffer] using hstop)
      | frame w hh =>
          rcases henc : h.encoder with _ | e'
          · simp only [runSessionAux, stepEvent,
              onFrameArrived_stop_none h s pos w hh hstop henc, List.nil_append]
            exact ih h s _ hstop
          · simp only [runSessionAux, stepEvent,
              onFrameArrived_stop_some h s pos w hh e' hstop henc]
            right
            simp [runSessionAux_stopped_encNone rest
              { h with encoder := none } s (pos + 1) hstop rfl]
      | stop =>
          simp only [runSessionAux, stepEvent, List.nil_append]
          exact ih h _ _ (by simp [requestStop])
      | closed =>
          rcases henc : h.encoder with _ | e'
          · simp only [runSessionAux, stepEvent, onClosed, henc, List.nil_append]
            exact ih h s _ hstop
          · simp only [runSessionAux, stepEvent, onClosed, henc]
            right
            simp [runSessionAux_stopped_encNone rest
              { h with encoder := none } s (pos + 1) hstop rfl]

/-- Proof-side potential: how many `finish` calls can still happen — one for
a live encoder, one for a pending deferred config (which can only ever turn
into a live encoder). -/
def encWeight (h : FrameHandler) : Nat :=
  (if h.encoder.isSome then 1 else 0) +
    (if h.encoder_config.isSome then 1 else 0)

lemma runSessionAux_finishCount (evs : List SessionEvent) :
    ∀ (h : FrameHandler) (s : CaptureState) (pos : Nat),
      finishCountOf (runSessionAux h s pos evs) ≤ encWeight h := by
  induction evs with
  | nil => intro h s pos; simp [runSessionAux, finishCountOf]
  | cons e rest ih =>
      intro h s pos
      cases e with
      | audio buf =>
          simp only [runSessionAux, stepEvent, List.nil_append]
          exact ih h _ _
      | stop =>
          simp only [runSessionAux, stepEvent, List.nil_append]
          exact ih h _ _
      | closed =>
          rcases henc : h.encoder with _ | e'
          · simp only [runSessionAux, stepEvent, onClosed, henc, List.nil_append]
            exact ih h s _
          · simp only [runSessionAux, stepEvent, onClosed, henc,
              List.cons_append, List.nil_append, finishCountOf_finish]
            have h1 := ih { h with encoder := none } s (pos + 1)
            simp [encWeight, henc] at h1 ⊢
            omega
      | frame w hh =>
          rcases hstop : s.stop_requested with _ | _
          · rcases hst : s.start_time with _ | t
            · rcases henc : h.encoder with _ | e'
              · rcases hcfg : h.encoder_config with _ | c
                · simp only [runSessionAux, stepEvent,
                    onFrameArrived_first_bare h s pos w hh hstop hst henc hcfg,
                    List.nil_append]
                  exact ih h _ _
                · simp only [runSessionAux, stepEvent,
                    onFrameArrived_first_create h s pos w hh c hstop hst henc
                      hcfg,
                    List.cons_append, List.nil_append, finishCountOf_create,
                    finishCountOf_send_frame]
                  have h1 := ih
                    (FrameHandler.mk
                      (some (EncoderSettings.mk w hh c.bitrate c.enable_audio
                        c.output_path)) none)
                    { s with start_time := some pos,
                             frame_count := s.frame_count + 1,
                             audio_receiver := s.audio_receiver.map
                               (fun _ => ([] : List (Nat × List Nat))) }
                    (pos + 1)
                  simp [encWeight, henc, hcfg] at h1 ⊢
                  omega
              · simp only [runSessionAux, stepEvent,
                  onFrameArrived_first_enc h s pos w hh e' hstop hst henc,
                  List.cons_append, List.nil_append, finishCountOf_send_frame]
                exact ih h _ _
            · rcases henc : h.encoder with _ | e'
              · simp only [runSessionAux, stepEvent,
                  onFrameArrived_later h s pos w hh t hstop hst, henc,
                  List.nil_append]
                exact ih h _ _
              · by_cases hemp : (s.audio_receiver.getD []).isEmpty
                · simp only [runSessionAux, stepEvent,
                    onFrameArrived_later h s pos w hh t hstop hst, henc, hemp,
                    if_pos, List.cons_append, List.nil_append,
                    finishCountOf_send_frame]
                  exact ih h _ _
                · simp only [runSessionAux, stepEvent,
                    onFrameArrived_later h s pos w hh t hstop hst, henc,
                    if_neg hemp, List.cons_append, List.nil_append,
                    finishCountOf_send_frame, finishCountOf_send_audio]
                  exact ih h _ _
          · rcases henc : h.encoder with _ | e'
            · simp only [runSessionAux, stepEvent,
                onFrameArrived_stop_none h s pos w hh hstop henc,
                List.nil_append]
              exact ih h s _
            · simp only [runSessionAux, stepEvent,
                onFrameArrived_stop_some h s pos w hh e' hstop henc,
                List.cons_append, List.nil_append, finishCountOf_finish]
              have h1 := ih { h with encoder := none } s (pos + 1)
              simp [encWeight, henc] at h1 ⊢
              omega

lemma getD_map_nil (o : Option (List (Nat × List Nat))) :
    (o.map (fun _ => ([] : List (Nat × List Nat)))).getD [] = [] := by
  cases o <;> rfl

lemma runSessionAux_audio_after (evs : List SessionEvent) :
    ∀ (h : FrameHandler) (s : CaptureState) (pos t : Nat),
      s.start_time = some t →
      (∀ x ∈ s.audio_receiver.getD [], t < x.1) →
      t < pos →
      ∀ bufs ∈ audioSendsOf (runSessionAux h s pos evs), ∀ x ∈ bufs,
        t < x.1 := by
  induction evs with
  | nil => intro h s pos t _ _ _ bufs hb; simp [runSessionAux] at hb
  | cons e rest ih =>
      intro h s pos t hst hq hpos bufs hb x hx
      cases e with
      | audio buf =>
          simp only [runSessionAux, stepEvent, List.nil_append] at hb
          refine ih h (onAudioBuffer s pos buf) (pos + 1) t
            (by simpa [onAudioBuffer] using hst) ?_ (by omega) bufs hb x hx
          intro y hy
          rcases har : s.audio_receiver with _ | q
          · simp [onAudioBuffer, har] at hy
          · simp only [onAudioBuffer, har, Option.map_some, Option.getD_some]
              at hy
            rcases List.mem_append.mp hy with hy | hy
            · exact hq y (by simp [har, hy])
            · simp at hy
              simp [hy]
              omega
      | stop =>
          simp only [runSessionAux, stepEvent, List.nil_append] at hb
          exact ih h (requestStop s) (pos + 1) t
            (by simpa [requestStop] using hst)
            (by simpa [requestStop] using hq) (by omega) bufs hb x hx
      | closed =>
          rcases henc : h.encoder with _ | e'
          · simp only [runSessionAux, stepEvent, onClosed, henc,
              List.nil_append] at hb
            exact ih h s (pos + 1) t hst hq (by omega) bufs hb x hx
          · simp only [runSessionAux, stepEvent, onClosed, henc,
              List.cons_append, List.nil_append, audioSendsOf_finish] at hb
            exact ih _ s (pos + 1) t hst hq (by omega) bufs hb x hx
      | frame w hh =>
          rcases hstop : s.stop_requested with _ | _
          · rcases henc : h.encoder with _ | e'
            · simp only [runSessionAux, stepEvent,
                onFrameArrived_later h s pos w hh t hstop hst, henc,
                List.nil_append] at hb
              refine ih h _ (pos + 1) t (by simpa using hst) ?_ (by omega)
                bufs hb x hx
              intro y hy
              simp [getD_map_nil] at hy
            · by_cases hemp : (s.audio_receiver.getD []).isEmpty
              · simp only [runSessionAux, stepEvent,
                  onFrameArrived_later h s pos w hh t hstop hst, henc, hemp,
                  if_pos, List.cons_append, List.nil_append,
                  audioSendsOf_send_frame] at hb
                refine ih h _ (pos + 1) t (by simpa using hst) ?_ (by omega)
                  bufs hb x hx
                intro y hy
                simp [getD_map_nil] at hy
              · simp only [runSessionAux, stepEvent,
                  onFrameArrived_later h s pos w hh t hstop hst, henc,
                  if_neg hemp, List.cons_append, List.nil_append,
                  audioSendsOf_send_frame, audioSendsOf_send_audio] at hb
                rcases List.mem_cons.mp hb with hb | hb
                · subst hb
                  exact hq x hx
                · refine ih h _ (pos + 1) t (by simpa using hst) ?_ (by omega)
                    bufs hb x hx
                  intro y hy
                  simp [getD_map_nil] at hy
          · rcases henc : h.encoder with _ | e'
            · simp only [runSessionAux, stepEvent,
                onFrameArrived_stop_none h s pos w hh hstop henc,
                List.nil_append] at hb
              exact ih h s (pos + 1) t hst hq (by omega) bufs hb x hx
            · simp only [runSessionAux, stepEvent,
                onFrameArrived_stop_some h s pos w hh e' hstop henc,
                List.cons_append, List.nil_append, audioSendsOf_finish] at hb
              exact ih _ s (pos + 1) t hst hq (by omega) bufs hb x hx

lemma runSessionAux_audio_pre (evs : List SessionEvent) :
    ∀ (h : FrameHandler) (s : CaptureState) (pos : Nat),
      s.start_time = none → s.stop_requested = false →
      ∀ bufs ∈ audioSendsOf (runSessionAux h s pos evs), ∀ x ∈ bufs,
        ∃ k, firstFrameIdx evs = some k ∧ pos + k < x.1 := by
  induction evs with
  | nil => intro h s pos _ _ bufs hb; simp [runSessionAux] at hb
  | cons e rest ih =>
      intro h s pos hst hstop bufs hb x hx
      cases e with
      | audio buf =>
          simp only [runSessionAux, stepEvent, List.nil_append] at hb
          obtain ⟨k, hk, hlt⟩ := ih h (onAudioBuffer s pos buf) (pos + 1)
            (by simpa [onAudioBuffer] using hst)
            (by simpa [onAudioBuffer] using hstop) bufs hb x hx
          exact ⟨k + 1, by simp [firstFrameIdx, hk], by omega⟩
      | stop =>
          simp only [runSessionAux, stepEvent, List.nil_append] at hb
          rcases runSessionAux_stopped rest h (requestStop s) (pos + 1)
              (by simp [requestStop]) with hout | hout <;>
            simp [hout] at hb
      | closed =>
          have hshift : ∀ k, firstFrameIdx rest = some k →
              ∃ k2, firstFrameIdx (SessionEvent.closed :: rest) = some k2 ∧
                k2 = k + 1 := by
            intro k hk
            exact ⟨k + 1, by simp [firstFrameIdx, hk], rfl⟩
          rcases henc : h.encoder with _ | e'
          · simp only [runSessionAux, stepEvent, onClosed, henc,
              List.nil_append] at hb
            obtain ⟨k, hk, hlt⟩ := ih h s (pos + 1) hst hstop bufs hb x hx
            obtain ⟨k2, hk2, hk2e⟩ := hshift k hk
            exact ⟨k2, hk2, by omega⟩
          · simp only [runSessionAux, stepEvent, onClosed, henc,
              List.cons_append, List.nil_append, audioSendsOf_finish] at hb
            obtain ⟨k, hk, hlt⟩ := ih _ s (pos + 1) hst hstop bufs hb x hx
            obtain ⟨k2, hk2, hk2e⟩ := hshift k hk
            exact ⟨k2, hk2, by omega⟩
      | frame w hh =>
          rcases henc : h.encoder with _ | e'
          · rcases hcfg : h.encoder_config with _ | c
            · simp only [runSessionAux, stepEvent,
                onFrameArrived_first_bare h s pos w hh hstop hst henc hcfg,
                List.nil_append] at hb
              have hafter := runSessionAux_audio_after rest _ _ (pos + 1) pos
                (by simp) (by intro y hy; simp [getD_map_nil] at hy)
                (by omega) bufs hb x hx
              exact ⟨0, by simp [firstFrameIdx], by omega⟩
            · simp only [runSessionAux, stepEvent,
                onFrameArrived_first_create h s pos w hh c hstop hst henc hcfg,
                List.cons_append, List.nil_append, audioSendsOf_create,
                audioSendsOf_send_frame] at hb
              have hafter := runSessionAux_audio_after rest _ _ (pos + 1) pos
                (by simp) (by intro y hy; simp [getD_map_nil] at hy)
                (by omega) bufs hb x hx
              exact ⟨0, by simp [firstFrameIdx], by omega⟩
          · simp only [runSessionAux, stepEvent,
              onFrameArrived_first_enc h s pos w hh e' hstop hst henc,
              List.cons_append, List.nil_append,
              audioSendsOf_send_frame] at hb
            have hafter := runSessionAux_audio_after rest _ _ (pos + 1) pos
              (by simp) (by intro y hy; simp [getD_map_nil] at hy)
              (by omega) bufs hb x hx
            exact ⟨0, by simp [firstFrameIdx], by omega⟩

lemma runSessionAux_creates_cfgNone (evs : List SessionEvent) :
    ∀ (h : FrameHandler) (s : CaptureState) (pos : Nat),
      h.encoder_config = none →
      createsOf (runSessionAux h s pos evs) = [] := by
  induction evs with
  | nil => intro h s pos _; rfl
  | cons e rest ih =>
      intro h s pos hcfg
      cases e with
      | audio buf =>
          simp only [runSessionAux, stepEvent, List.nil_append]
          exact ih h _ _ hcfg
      | stop =>
          simp only [runSessionAux, stepEvent, List.nil_append]
          exact ih h _ _ hcfg
      | closed =>
          rcases henc : h.encoder with _ | e'
          · simp only [runSessionAux, stepEvent, onClosed, henc,
              List.nil_append]
            exact ih h s _ hcfg
          · simp only [runSessionAux, stepEvent, onClosed, henc,
              List.cons_append, List.nil_append, createsOf_finish]
            exact ih { h with encoder := none } s _ (by simpa using hcfg)
      | frame w hh =>
          rcases hstop : s.stop_requested with _ | _
          · rcases hst : s.start_time with _ | t
            · rcases henc : h.encoder with _ | e'
              · simp only [runSessionAux, stepEvent,
                  onFrameArrived_first_bare h s pos w hh hstop hst henc hcfg,
                  List.nil_append]
                exact ih h _ _ hcfg
              · simp only [runSessionAux, stepEvent,
                  onFrameArrived_first_enc h s pos w hh e' hstop hst henc,
                  List.cons_append, List.nil_append, createsOf_send_frame]
                exact ih h _ _ hcfg
            · rcases henc : h.encoder with _ | e'
              · simp only [runSessionAux, stepEvent,
                  onFrameArrived_later h s pos w hh t hstop hst, henc,
                  List.nil_append]
                exact ih h _ _ hcfg
              · by_cases hemp : (s.audio_receiver.getD []).isEmpty
                · simp only [runSessionAux, stepEvent,
                    onFrameArrived_later h s pos w hh t hstop hst, henc, hemp,
                    if_pos, List.cons_append, List.nil_append,
                    createsOf_send_frame]
                  exact ih h _ _ hcfg
                · simp only [runSessionAux, stepEvent,
                    onFrameArrived_later h s pos w hh t hstop hst, henc,
                    if_neg hemp, List.cons_append, List.nil_append,
                    createsOf_send_frame, createsOf_send_audio]
                  exact ih h _ _ hcfg
          · rcases henc : h.encoder with _ | e'
            · simp only [runSessionAux, stepEvent,
                onFrameArrived_stop_none h s pos w hh hstop henc,
                List.nil_append]
              exact ih h s _ hcfg
            · simp only [runSessionAux, stepEvent,
                onFrameArrived_stop_some h s pos w hh e' hstop henc,
                List.cons_append, List.nil_append, createsOf_finish]
              exact ih { h with encoder := none } s _ (by simpa using hcfg)

lemma runSessionAux_creates_pre (evs : List SessionEvent) :
    ∀ (h : FrameHandler) (s : CaptureState) (pos : Nat) (c : EncoderConfig),
      s.start_time = none → s.stop_requested = false →
      h.encoder = none → h.encoder_config = some c →
      ((createsOf (runSessionAux h s pos evs)).length ≤ 1 ∧
       (∀ st ∈ createsOf (runSessionAux h s pos evs),
          ∃ w hh, firstFrameDims evs = some (w, hh) ∧
            st.width = w ∧ st.height = hh) ∧
       (stopBeforeFirstFrame evs = false →
          ∀ w hh, firstFrameDims evs = some (w, hh) →
          createsOf (runSessionAux h s pos evs) =
            [{ width := w, height := hh, bitrate := c.bitrate,
               enable_audio := c.enable_audio,
               output_path := c.output_path }])) := by
  induction evs with
  | nil =>
      intro h s pos c _ _ _ _
      refine ⟨by simp [runSessionAux], by simp [runSessionAux], ?_⟩
      intro _ w hh hdim
      simp [firstFrameDims] at hdim
  | cons e rest ih =>
      intro h s pos c hst hstop henc hcfg
      cases e with
      | audio buf =>
          simp only [runSessionAux, stepEvent, List.nil_append]
          have h1 := ih h (onAudioBuffer s pos buf) (pos + 1) c
            (by simpa [onAudioBuffer] using hst)
            (by simpa [onAudioBuffer] using hstop) henc hcfg
          refine ⟨h1.1, ?_, ?_⟩
          · intro st hstm
            obtain ⟨w, hh, hdim, hw, hhh⟩ := h1.2.1 st hstm
            exact ⟨w, hh, by simp [firstFrameDims, hdim], hw, hhh⟩
          · intro hsb w hh hdim
            simp only [stopBeforeFirstFrame] at hsb
            simp only [firstFrameDims] at hdim
            exact h1.2.2 hsb w hh hdim
      | stop =>
          have hout := runSessionAux_stopped rest h (requestStop s) (pos + 1)
            (by simp [requestStop])
          simp only [runSessionAux, stepEvent, List.nil_append]
          refine ⟨?_, ?_, ?_⟩
          · rcases hout with hout | hout <;> simp [hout]
          · intro st hstm
            rcases hout with hout | hout <;> simp [hout] at hstm
          · intro hsb
            simp [stopBeforeFirstFrame] at hsb
      | closed =>
          simp only [runSessionAux, stepEvent, onClosed, henc, List.nil_append]
          have h1 := ih h s (pos + 1) c hst hstop henc hcfg
          refine ⟨h1.1, ?_, ?_⟩
          · intro st hstm
            obtain ⟨w, hh, hdim, hw, hhh⟩ := h1.2.1 st hstm
            exact ⟨w, hh, by simp [firstFrameDims, hdim], hw, hhh⟩
          · intro hsb w hh hdim
            simp only [stopBeforeFirstFrame] at hsb
            simp only [firstFrameDims] at hdim
            exact h1.2.2 hsb w hh hdim
      | frame w hh =>
          simp only [runSessionAux, stepEvent,
            onFrameArrived_first_create h s pos w hh c hstop hst henc hcfg,
            List.cons_append, List.nil_append, createsOf_create,
            createsOf_send_frame]
          have hrest := runSessionAux_creates_cfgNone rest
            (FrameHandler.mk
              (some (EncoderSettings.mk w hh c.bitrate c.enable_audio
                c.output_path)) none)
            { s with start_time := some pos,
                     frame_count := s.frame_count + 1,
                     audio_receiver := s.audio_receiver.map
                       (fun _ => ([] : List (Nat × List Nat))) }
            (pos + 1) rfl
          rw [hrest]
          refine ⟨by simp, ?_, ?_⟩
          · intro st hstm
            simp at hstm
            exact ⟨w, hh, by simp [firstFrameDims], by simp [hstm],
              by simp [hstm]⟩
          · intro _ w2 hh2 hdim
            simp only [firstFrameDims, Option.some.injEq, Prod.mk.injEq]
              at hdim
            simp [hdim.1, hdim.2]

/-! ### Claim theorems about the capture session -/

/-- C1: in deferred-dimension mode the live encoder is constructed at most
once; any constructed encoder carries the width/height reported by the trace's
first frame event; and if a frame arrives before any stop request, the
encoder is constructed exactly once, with that frame's dimensions and the
deferred config's bitrate/audio/path — never with the flag (target)
dimensions. -/
theorem deferred_encoder_built_from_first_frame (flags : CaptureFlags)
    (evs : List SessionEvent) (hdef : flags.use_frame_dimensions = true) :
    (createsOf (runSession flags evs)).length ≤ 1 ∧
    (∀ st ∈ createsOf (runSession flags evs),
       ∃ w hh, firstFrameDims evs = some (w, hh) ∧
         st.width = w ∧ st.height = hh) ∧
    (stopBeforeFirstFrame evs = false →
       ∀ w hh, firstFrameDims evs = some (w, hh) →
       createsOf (runSession flags evs) =
         [{ width := w, height := hh, bitrate := flags.bitrate,
            enable_audio := flags.enable_audio,
            output_path := flags.output_path }]) := by
  have hnew : FrameHandler.new flags =
      FrameHandler.mk none
        (some (EncoderConfig.mk flags.output_path flags.enable_audio
          flags.bitrate)) := by
    simp [FrameHandler.new, hdef]
  unfold runSession
  rw [hnew]
  exact runSessionAux_creates_pre evs
    (FrameHandler.mk none
      (some (EncoderConfig.mk flags.output_path flags.enable_audio
        flags.bitrate)))
    (initialCaptureState flags.enable_audio) 0
    (EncoderConfig.mk flags.output_path flags.enable_audio flags.bitrate)
    rfl rfl rfl rfl

/-- Witness for C1: three frames reporting 1280×718 while the capture flags
requested 1280×720 — the single encoder construction uses 1280×718. -/
theorem deferred_encoder_built_from_first_frame_witness :
    createsOf (runSession
      { width := 1280, height := 720, output_path := ['f'],
        enable_audio := true, bitrate := 18000000,
        use_frame_dimensions := true }
      [SessionEvent.frame 1280 718, SessionEvent.frame 1280 718,
       SessionEvent.frame 1280 718]) =
      [{ width := 1280, height := 718, bitrate := 18000000,
         enable_audio := true, output_path := ['f'] }] :=
  (deferred_encoder_built_from_first_frame
    { width := 1280, height := 720, output_path := ['f'],
      enable_audio := true, bitrate := 18000000,
      use_frame_dimensions := true }
    [SessionEvent.frame 1280 718, SessionEvent.frame 1280 718,
     SessionEvent.frame 1280 718] rfl).2.2 rfl 1280 718 rfl

/-- C5: every audio buffer forwarded to the encoder was received on the audio
channel strictly after the first video frame's arrival; in particular all
buffers queued before the first frame are discarded, never forwarded. -/
theorem session_audio_only_after_first_frame (flags : CaptureFlags)
    (evs : List SessionEvent) :
    ∀ bufs ∈ audioSendsOf (runSession flags evs), ∀ x ∈ bufs,
      ∃ k, firstFrameIdx evs = some k ∧ k < x.1 := by
  intro bufs hb x hx
  obtain ⟨k, hk, hlt⟩ := runSessionAux_audio_pre evs (FrameHandler.new flags)
    (initialCaptureState flags.enable_audio) 0 rfl rfl bufs hb x hx
  exact ⟨k, hk, by omega⟩

/-- Witness for C5, on the spec's end-to-end scenario: two audio buffers
before frame 1, one between frame 1 and frame 2 — only the post-frame-1
buffer (received at position 3) is forwarded, and 2 (the first frame's
position) is less than 3. -/
theorem session_audio_only_after_first_frame_witness :
    [(3, [30])] ∈ audioSendsOf (runSession
      { width := 1280, height := 720, output_path := ['f'],
        enable_audio := true, bitrate := 18000000,
        use_frame_dimensions := true }
      [SessionEvent.audio [10], SessionEvent.audio [20],
       SessionEvent.frame 1280 718, SessionEvent.audio [30],
       SessionEvent.frame 1280 718]) ∧
    (∃ k, firstFrameIdx
      [SessionEvent.audio [10], SessionEvent.audio [20],
       SessionEvent.frame 1280 718, SessionEvent.audio [30],
       SessionEvent.frame 1280 718] = some k ∧ k < 3) :=
  ⟨by decide,
   session_audio_only_after_first_frame
     { width := 1280, height := 720, output_path := ['f'],
       enable_audio := true, bitrate := 18000000,
       use_frame_dimensions := true }
     [SessionEvent.audio [10], SessionEvent.audio [20],
      SessionEvent.frame 1280 718, SessionEvent.audio [30],
      SessionEvent.frame 1280 718]
     [(3, [30])] (by decide) (3, [30]) (by decide)⟩

/-- C6: (i) over any whole session, in either encoder mode and including
`on_closed`, `finish` is called at most once; (ii) a frame callback that
observes `stop_requested` while the encoder is live performs exactly one
`finish` call and nothing else — no `send_frame` then or on any later
callback. -/
theorem stop_finishes_encoder_exactly_once :
    (∀ (flags : CaptureFlags) (evs : List SessionEvent),
       finishCountOf (runSession flags evs) ≤ 1) ∧
    (∀ (h : FrameHandler) (s : CaptureState) (pos w hh : Nat)
       (e : EncoderSettings) (rest : List SessionEvent),
       s.stop_requested = true → h.encoder = some e →
       runSessionAux h s pos (SessionEvent.frame w hh :: rest) =
         [EncoderCall.finish]) := by
  constructor
  · intro flags evs
    have h1 := runSessionAux_finishCount evs (FrameHandler.new flags)
      (initialCaptureState flags.enable_audio) 0
    have h2 : encWeight (FrameHandler.new flags) = 1 := by
      rcases hd : flags.use_frame_dimensions with _ | _ <;>
        simp [FrameHandler.new, encWeight, hd]
    unfold runSession
    omega
  · intro h s pos w hh e rest hstop henc
    simp only [runSessionAux, stepEvent,
      onFrameArrived_stop_some h s pos w hh e hstop henc]
    simp [runSessionAux_stopped_encNone rest { h with encoder := none } s
      (pos + 1) hstop rfl]

/-- Witness for C6 part (ii): a stopped state with a live encoder processing
a frame then further events yields exactly one `finish` call. -/
theorem stop_finishes_encoder_exactly_once_witness :
    runSessionAux
      (FrameHandler.mk
        (some (EncoderSettings.mk 640 480 2000000 false ['f'])) none)
      { stop_requested := true, frame_count := 3, start_time := some 0,
        audio_receiver := some [] } 7
      [SessionEvent.frame 640 480, SessionEvent.frame 640 480,
       SessionEvent.closed] =
      [EncoderCall.finish] :=
  stop_finishes_encoder_exactly_once.2
    (FrameHandler.mk
      (some (EncoderSettings.mk 640 480 2000000 false ['f'])) none)
    { stop_requested := true, frame_count := 3, start_time := some 0,
      audio_receiver := some [] } 7 640 480
    (EncoderSettings.mk 640 480 2000000 false ['f'])
    [SessionEvent.frame 640 480, SessionEvent.closed] rfl rfl

/-! ## TargetSelector — `find_target` / `score_window` (windows_v2.rs)

Strings are `List Char`; `str::to_lowercase` is `Char.toLower` pointwise
(all strings the selection logic compares against are ASCII);
`str::contains` is substring containment.  Platform windows are records of
the data the selector reads: the `Result` of `w.title()` as an `Option`, the
owning process id, and the `Result` of `w.rect()` as an
`Option (left, top, right, bottom)`. -/

/-- `str::to_lowercase` (ASCII). -/
def toLowerList (s : List Char) : List Char := s.map Char.toLower

/-- `str::contains(pat)` — some index at which `pat` is a prefix of the
remaining suffix. -/
def containsSub (s pat : List Char) : Bool :=
  (List.range (s.length + 1)).any fun i => pat.isPrefixOf (s.drop i)

/-- The built-in keyword set and noise words of `score_window` /
`find_target`. -/
def kwSlippi : List Char := "slippi".toList

def kwDolphin : List Char := "dolphin".toList

def kwMelee : List Char := "melee".toList

def kwFaster : List Char := "faster".toList

def kwDiscord : List Char := "discord".toList

def kwChrome : List Char := "chrome".toList

def kwFirefox : List Char := "firefox".toList

/-- A platform window as the selector sees it. -/
structure RWindow where
  title : Option (List Char)
  pid : Nat
  rect : Option (Int × Int × Int × Int)
  deriving DecidableEq, Repr

/-- A platform monitor handle. -/
structure RMonitor where
  id : Nat
  deriving DecidableEq, Repr

/-- `enum CaptureTarget { Window(..), Monitor(..) }`. -/
inductive CaptureTarget where
  | Window (w : RWindow)
  | Monitor (m : RMonitor)
  deriving DecidableEq, Repr

/-- `struct TargetSelection { title, pid }`. -/
structure TargetSelection where
  title : Option (List Char)
  pid : Option Nat
  deriving DecidableEq, Repr

/-- `fn score_window(window, hint) -> i32`. -/
def score_window (w : RWindow) (hint : Option (List Char)) : Int :=
  let title_score : Int :=
    match w.title with
    | some title =>
        let lower := toLowerList title
        (match hint with
         | some hn => if containsSub lower (toLowerList hn) then 100 else 0
         | none => 0)
        + (if containsSub lower kwSlippi then 50 else 0)
        + (if containsSub lower kwDolphin then 30 else 0)
        + (if containsSub lower kwMelee then 40 else 0)
        + (if containsSub lower kwFaster then 20 else 0)
        + (if containsSub lower kwDiscord || containsSub lower kwChrome ||
              containsSub lower kwFirefox then -50 else 0)
    | none => 0
  let rect_score : Int :=
    match w.rect with
    | some (l, t, r, b) => if (r - l) * (b - t) > 800 * 600 then 10 else 0
    | none => 0
  title_score + rect_score

/-- The filter closure of `find_target`: with a title hint, case-insensitive
substring match; without one (also when only a pid was supplied), the
built-in keyword set. -/
def windowFilter (hint : Option (List Char)) (w : RWindow) : Bool :=
  match w.title with
  | some t =>
      let lower := toLowerList t
      match hint with
      | some hn => containsSub lower (toLowerList hn)
      | none =>
          containsSub lower kwSlippi || containsSub lower kwDolphin ||
            containsSub lower kwMelee
  | none => false

/-- `Iterator::max_by_key` — of several equally maximal elements the LAST
one is returned. -/
def maxByKey {α : Type} (key : α → Int) : List α → Option α
  | [] => none
  | x :: xs => some (xs.foldl (fun best y => if key best ≤ key y then y else best) x)

/-- The candidate `find_target` selects before the display fallback. -/
def bestCandidate (selection : TargetSelection) (ws : List RWindow) :
    Option RWindow :=
  if selection.pid.isSome || selection.title.isSome then
    maxByKey (fun w => score_window w selection.title)
      (ws.filter (windowFilter selection.title))
  else
    maxByKey (fun w => score_window w (some kwSlippi))
      (ws.filter (windowFilter none))

/-- `WindowsRecorder::find_target`, with the two platform calls
(`Window::enumerate()` and `Monitor::primary()`) as `Except` inputs. -/
def find_target (selection : TargetSelection)
    (windows : Except (List Char) (List RWindow))
    (primary : Except (List Char) RMonitor) :
    Except (List Char) CaptureTarget :=
  match windows with
  | Except.error e => Except.error e
  | Except.ok ws =>
      match bestCandidate selection ws with
      | some w => Except.ok (CaptureTarget.Window w)
      | none =>
          match primary with
          | Except.ok m => Except.ok (CaptureTarget.Monitor m)
          | Except.error e => Except.error e

lemma foldl_choice_mem {α : Type} (key : α → Int) (xs : List α) :
    ∀ x : α,
      xs.foldl (fun best y => if key best ≤ key y then y else best) x ∈
        x :: xs := by
  induction xs with
  | nil => intro x; simp
  | cons y ys ih =>
      intro x
      simp only [List.foldl_cons]
      by_cases hk : key x ≤ key y
      · rw [if_pos hk]
        exact List.mem_cons.mpr (Or.inr (ih y))
      · rw [if_neg hk]
        rcases List.mem_cons.mp (ih x) with hm | hm
        · exact List.mem_cons.mpr (Or.inl hm)
        · exact List.mem_cons.mpr (Or.inr (List.mem_cons.mpr (Or.inr hm)))

lemma maxByKey_mem {α : Type} (key : α → Int) (l : List α) (x : α)
    (hx : maxByKey key l = some x) : x ∈ l := by
  cases l with
  | nil => simp [maxByKey] at hx
  | cons a as =>
      simp only [maxByKey, Option.some.injEq] at hx
      have := foldl_choice_mem key as a
      rw [hx] at this
      exact this

/-- C3 (counterexample): with a pid-only hint (pid 42) over a window owned
by pid 42 titled "Notepad" and a window owned by pid 7 titled
"Slippi Dolphin", `find_target` selects the pid-7 window — so the filter is
not "windows owned by that process". -/
theorem find_target_pid_only_not_process_filtered :
    find_target ⟨none, some 42⟩
      (Except.ok
        [⟨some "Notepad".toList, 42, none⟩,
         ⟨some "Slippi Dolphin".toList, 7, none⟩])
      (Except.ok ⟨0⟩) =
      Except.ok (CaptureTarget.Window
        ⟨some "Slippi Dolphin".toList, 7, none⟩) ∧
    (7 : Nat) ≠ 42 := by
  constructor
  · rfl
  · decide

/-- C3 (amended): with a pid-only hint, `find_target` ignores the process id
entirely — any selected window comes from the enumerated list filtered by
the built-in keyword set (not by process ownership), and the outcome does
not depend on the pid value. -/
theorem find_target_pid_only_uses_keyword_filter (pid : Nat)
    (ws : List RWindow) (primary : Except (List Char) RMonitor) :
    (∀ w, find_target ⟨none, some pid⟩ (Except.ok ws) primary =
        Except.ok (CaptureTarget.Window w) →
      w ∈ ws ∧ windowFilter none w = true) ∧
    (∀ pid2 : Nat, find_target ⟨none, some pid⟩ (Except.ok ws) primary =
        find_target ⟨none, some pid2⟩ (Except.ok ws) primary) := by
  constructor
  · intro w hw
    simp only [find_target, bestCandidate, Option.isSome_some,
      Bool.true_or] at hw
    rcases hbc : maxByKey (fun w2 => score_window w2 none)
        (ws.filter (windowFilter none)) with _ | w2
    · rw [hbc] at hw
      rcases primary with e | m <;> simp at hw
    · rw [hbc] at hw
      simp only [Option.some.injEq, if_true] at hw
      have hmem := maxByKey_mem _ _ _ hbc
      have hw2 : w2 = w := by
        cases hw
        rfl
      rw [hw2] at hmem
      exact ⟨(List.mem_filter.mp hmem).1, (List.mem_filter.mp hmem).2⟩
  · intro pid2
    rfl

/-- Witness for C3's amended theorem: the selected "Slippi Dolphin" window
is in the enumerated list and passes the keyword filter. -/
theorem find_target_pid_only_uses_keyword_filter_witness :
    (⟨some "Slippi Dolphin".toList, 7, none⟩ : RWindow) ∈
      [(⟨some "Notepad".toList, 42, none⟩ : RWindow),
       ⟨some "Slippi Dolphin".toList, 7, none⟩] ∧
    windowFilter none ⟨some "Slippi Dolphin".toList, 7, none⟩ = true :=
  (find_target_pid_only_uses_keyword_filter 42
    [⟨some "Notepad".toList, 42, none⟩,
     ⟨some "Slippi Dolphin".toList, 7, none⟩]
    (Except.ok ⟨0⟩)).1
    ⟨some "Slippi Dolphin".toList, 7, none⟩ rfl

/-- C4 (counterexample): enumeration succeeds (with zero windows), no
candidate survives, yet `find_target` fails — because the primary-monitor
lookup itself fails.  So "fails only when the platform cannot enumerate
windows" is not literally true. -/
theorem find_target_error_despite_enumeration :
    find_target ⟨none, none⟩ (Except.ok [])
      (Except.error "no monitor".toList) =
      Except.error "no monitor".toList := rfl

/-- C4 (amended): `find_target` fails only when window enumeration fails, or
when no candidate survives filtering AND the primary-monitor lookup fails;
whenever enumeration succeeds, no candidate survives and the primary monitor
is available, it returns the Display (monitor) target rather than an
error. -/
theorem find_target_fallback_or_enumeration_error (sel : TargetSelection)
    (ws : List RWindow) (primary : Except (List Char) RMonitor) :
    (∀ (e : List Char) (p : Except (List Char) RMonitor),
       find_target sel (Except.error e) p = Except.error e) ∧
    (∀ e, find_target sel (Except.ok ws) primary = Except.error e →
       bestCandidate sel ws = none ∧ primary = Except.error e) ∧
    (∀ m, bestCandidate sel ws = none → primary = Except.ok m →
       find_target sel (Except.ok ws) primary =
         Except.ok (CaptureTarget.Monitor m)) := by
  refine ⟨fun e p => rfl, ?_, ?_⟩
  · intro e he
    simp only [find_target] at he
    rcases hbc : bestCandidate sel ws with _ | w
    · rw [hbc] at he
      rcases hp : primary with e' | m
      · rw [hp] at he
        simp only [Except.error.injEq] at he
        exact ⟨rfl, by rw [he]⟩
      · rw [hp] at he
        simp at he
    · rw [hbc] at he
      simp at he
  · intro m hbc hp
    simp [find_target, hbc, hp]

/-- Witness for C4's amended theorem: zero windows and an available monitor
give the Display fallback. -/
theorem find_target_fallback_or_enumeration_error_witness :
    find_target ⟨none, none⟩ (Except.ok []) (Except.ok ⟨0⟩) =
      Except.ok (CaptureTarget.Monitor ⟨0⟩) :=
  (find_target_fallback_or_enumeration_error ⟨none, none⟩ []
    (Except.ok ⟨0⟩)).2.2 ⟨0⟩ rfl rfl

/-! ## RecorderFacade — `WindowsRecorder` (windows_v2.rs) and `Error`
(commands/errors.rs) -/

/-- `enum Error` of commands/errors.rs (payloads as strings). -/
inductive Error where
  | Io (msg : List Char)
  | Utf8 (msg : List Char)
  | WatchError (msg : List Char)
  | InvalidPath (msg : List Char)
  | UnsupportedPlatform
  | InitializationError (msg : List Char)
  | WindowNotFound
  | RecordingFailed (msg : List Char)
  deriving DecidableEq, Repr

/-- The message of the already-recording guard error. -/
def alreadyRecordingMsg : List Char := "Already recording".toList

/-- The message of the not-recording guard error. -/
def notRecordingMsg : List Char := "Not recording".toList

/-- `struct WindowsRecorder` — owned handles modelled by presence, the
shared state by its snapshot. -/
structure WindowsRecorder where
  capture_control : Option Unit
  capture_state : Option CaptureState
  audio_capture : Option Unit
  output_path : Option (List Char)
  is_recording : Bool
  deriving DecidableEq, Repr

/-- `WindowsRecorder::new`. -/
def WindowsRecorder.new : WindowsRecorder :=
  { capture_control := none, capture_state := none, audio_capture := none,
    output_path := none, is_recording := false }

/-- The environment `start_recording` consults: filesystem, platform
enumeration, measurement, audio subsystem and capture registration, each
`Result` an input. -/
structure StartEnv where
  ensure_output_dir : Except (List Char) Unit
  windows : Except (List Char) (List RWindow)
  primary : Except (List Char) RMonitor
  target_size : CaptureTarget → Except (List Char) (Nat × Nat)
  audio_enabled : Bool
  audio_start : Except (List Char) Unit
  capture_start : Except (List Char) Unit

/-- `WindowsRecorder::start_recording` — guard, directory creation, target
selection, sizing, audio start, shared-state creation, capture start, field
updates; returns the `Result` and the recorder afterwards. -/
def start_recording (r : WindowsRecorder) (env : StartEnv)
    (selection : TargetSelection) (output_path : List Char)
    (quality : RecordingQuality) : Except Error Unit × WindowsRecorder :=
  if r.is_recording then
    (Except.error (Error.RecordingFailed alreadyRecordingMsg), r)
  else
    match env.ensure_output_dir with
    | Except.error e => (Except.error (Error.RecordingFailed e), r)
    | Except.ok _ =>
    match find_target selection env.windows env.primary with
    | Except.error e => (Except.error (Error.RecordingFailed e), r)
    | Except.ok target =>
    match env.target_size target with
    | Except.error e => (Except.error (Error.RecordingFailed e), r)
    | Except.ok (source_w, source_h) =>
      let _scaled := quality.scale_dimensions source_w source_h
      let audio : Option Unit × Option (List (Nat × List Nat)) :=
        if env.audio_enabled then
          match env.audio_start with
          | Except.ok _ => (some (), some [])
          | Except.error _ => (none, none)
        else (none, none)
      let r1 := { r with audio_capture := audio.1 }
      let capture_state : CaptureState :=
        { stop_requested := false, frame_count := 0, start_time := none,
          audio_receiver := audio.2 }
      match env.capture_start with
      | Except.error e => (Except.error (Error.RecordingFailed e), r1)
      | Except.ok _ =>
          (Except.ok (),
           { r1 with capture_control := some (),
                     capture_state := some capture_state,
                     output_path := some output_path,
                     is_recording := true })

/-- `WindowsRecorder::stop_recording` — guard, then release audio, set the
stop flag, release the capture control, take the output path and clear
state. -/
def stop_recording (r : WindowsRecorder) :
    Except Error (List Char) × WindowsRecorder :=
  if !r.is_recording then
    (Except.error (Error.RecordingFailed notRecordingMsg), r)
  else
    let output := r.output_path.getD []
    (Except.ok output,
     { capture_control := none,
       capture_state := none,
       audio_capture := none,
       output_path := none,
       is_recording := false })

/-- C7: starting while a recording is active returns the already-recording
error (`RecordingFailed "Already recording"`), and the recorder — in
particular the active session's shared state (frame counter) and the stored
output path — is unchanged. -/
theorem start_recording_while_active_unchanged (r : WindowsRecorder)
    (env : StartEnv) (selection : TargetSelection) (output_path : List Char)
    (quality : RecordingQuality) (hr : r.is_recording = true) :
    start_recording r env selection output_path quality =
      (Except.error (Error.RecordingFailed alreadyRecordingMsg), r) ∧
    (start_recording r env selection output_path quality).2.capture_state =
      r.capture_state ∧
    (start_recording r env selection output_path quality).2.output_path =
      r.output_path := by
  refine ⟨by simp [start_recording, hr], ?_, ?_⟩ <;> simp [start_recording, hr]

/-- Witness for C7 at a concrete active recorder (frame counter 17, output
path "out"). -/
theorem start_recording_while_active_unchanged_witness :
    (start_recording
      { capture_control := some (),
        capture_state := some
          { stop_requested := false, frame_count := 17,
            start_time := some 0, audio_receiver := some [] },
        audio_capture := some (),
        output_path := some "out".toList,
        is_recording := true }
      { ensure_output_dir := Except.ok (),
        windows := Except.ok [], primary := Except.ok ⟨0⟩,
        target_size := fun _ => Except.ok (1920, 1080),
        audio_enabled := true, audio_start := Except.ok (),
        capture_start := Except.ok () }
      ⟨none, none⟩ "other".toList RecordingQuality.High) =
      (Except.error (Error.RecordingFailed alreadyRecordingMsg),
       { capture_control := some (),
         capture_state := some
           { stop_requested := false, frame_count := 17,
             start_time := some 0, audio_receiver := some [] },
         audio_capture := some (),
         output_path := some "out".toList,
         is_recording := true }) :=
  (start_recording_while_active_unchanged
    { capture_control := some (),
      capture_state := some
        { stop_requested := false, frame_count := 17,
          start_time := some 0, audio_receiver := some [] },
      audio_capture := some (),
      output_path := some "out".toList,
      is_recording := true }
    { ensure_output_dir := Except.ok (),
      windows := Except.ok [], primary := Except.ok ⟨0⟩,
      target_size := fun _ => Except.ok (1920, 1080),
      audio_enabled := true, audio_start := Except.ok (),
      capture_start := Except.ok () }
    ⟨none, none⟩ "other".toList RecordingQuality.High rfl).1

/-- C8: stopping when no recording is active returns the not-recording error
(`RecordingFailed "Not recording"`) and leaves the recorder unchanged. -/
theorem stop_recording_not_active_unchanged (r : WindowsRecorder)
    (hr : r.is_recording = false) :
    stop_recording r =
      (Except.error (Error.RecordingFailed notRecordingMsg), r) := by
  simp [stop_recording, hr]

/-- Witness for C8 at the freshly constructed recorder. -/
theorem stop_recording_not_active_unchanged_witness :
    stop_recording WindowsRecorder.new =
      (Except.error (Error.RecordingFailed notRecordingMsg),
       WindowsRecorder.new) :=
  stop_recording_not_active_unchanged WindowsRecorder.new rfl

/-! ## `TargetSelection::from_env` (windows_v2.rs)

`str::trim` is modelled over ASCII whitespace, `str::rfind` by the last
character index where the pattern is a prefix of the remaining suffix (the
pattern `"(PID:"` is pure ASCII, so byte and character slicing agree), and
`str::parse::<u32>` on a digit string by its decimal value guarded by the
`u32` range. -/

/-- `str::trim`. -/
def trimList (s : List Char) : List Char :=
  ((s.dropWhile Char.isWhitespace).reverse.dropWhile Char.isWhitespace).reverse

/-- The `"(PID:"` marker. -/
def markerPID : List Char := "(PID:".toList

/-- `str::rfind(pat)` — index of the last occurrence. -/
def rfindIdx (s pat : List Char) : Option Nat :=
  ((List.range (s.length + 1)).filter fun i =>
    pat.isPrefixOf (s.drop i)).getLast?

/-- Decimal value of a digit string. -/
def digitsVal (ds : List Char) : Nat :=
  ds.foldl (fun acc c => acc * 10 + (c.toNat - '0'.toNat)) 0

/-- `str::parse::<u32>` on an all-digit string: fails on the empty string
and on `u32` overflow. -/
def parseU32Digits (ds : List Char) : Option Nat :=
  if ds.isEmpty then none
  else if digitsVal ds < 4294967296 then some (digitsVal ds) else none

/-- `str::parse::<u32>` on an arbitrary string (optional leading sign,
digits only). -/
def rustParseU32 (s : List Char) : Option Nat :=
  let ds := match s with
    | '+' :: rest => rest
    | _ => s
  if ds.all Char.isDigit then parseU32Digits ds else none

/-- `TargetSelection::from_env`, with the two environment variables
(`PEPPI_TARGET_WINDOW`, `PEPPI_TARGET_PID`) as `Option` inputs. -/
def TargetSelection.from_env (envTitle envPid : Option (List Char)) :
    TargetSelection :=
  let title0 := envTitle.map trimList
  let pid0 := envPid.bind rustParseU32
  let parsed : Option (List Char) × Option Nat :=
    match title0 with
    | some t =>
        match rfindIdx t markerPID with
        | some idx =>
            let pid1 :=
              if pid0.isNone then
                parseU32Digits ((t.drop (idx + 5)).filter Char.isDigit)
              else pid0
            (some (trimList (t.take idx)), pid1)
        | none => (title0, pid0)
    | none => (none, pid0)
  { title := parsed.1.bind fun t => if t.isEmpty then none else some t,
    pid := parsed.2 }

lemma getLast_filter_range (p : Nat → Bool) :
    ∀ (n k : Nat), k ≤ n → p k = true →
      (∀ j, k < j → j ≤ n → p j = false) →
      ((List.range (n + 1)).filter p).getLast? = some k := by
  intro n
  induction n with
  | zero =>
      intro k hk hp _
      have hk0 : k = 0 := by omega
      subst hk0
      simp [List.range_succ, List.filter, hp]
  | succ n ih =>
      intro k hk hp hlast
      rw [List.range_succ, List.filter_append]
      by_cases hkn : k = n + 1
      · subst hkn
        simp [List.filter, hp, List.getLast?_concat]
      · have hpn : p (n + 1) = false := hlast (n + 1) (by omega) (by omega)
        simp only [List.filter, hpn, List.append_nil]
        exact ih k (by omega) hp (fun j hj hjn => hlast j hj (by omega))

lemma rfindIdx_eq_of_last (t pat : List Char) (idx : Nat)
    (hne : pat ≠ [])
    (hpre : pat.isPrefixOf (t.drop idx) = true)
    (hlast : ∀ j, idx < j → j ≤ t.length →
      pat.isPrefixOf (t.drop j) = false) :
    rfindIdx t pat = some idx := by
  have hidx : idx ≤ t.length := by
    by_contra hgt
    push_neg at hgt
    rw [List.drop_eq_nil_of_le (by omega)] at hpre
    cases pat with
    | nil => exact hne rfl
    | cons a as => simp [List.isPrefixOf] at hpre
  unfold rfindIdx
  exact getLast_filter_range (fun i => pat.isPrefixOf (t.drop i)) t.length
    idx hidx hpre hlast

/-- C10: for a hint string whose trimmed form has its last `"(PID:"`
occurrence at `idx`, and no separate PID variable: the parsed title is the
trimmed prefix before the marker (`none` if that is empty), and the parsed
pid is the `u32` parse of the ASCII digits following the marker. -/
theorem from_env_marker_parsing (s : List Char) (idx : Nat)
    (hpre : markerPID.isPrefixOf ((trimList s).drop idx) = true)
    (hlast : ∀ j, idx < j → j ≤ (trimList s).length →
      markerPID.isPrefixOf ((trimList s).drop j) = false) :
    (TargetSelection.from_env (some s) none).title =
      (if trimList ((trimList s).take idx) = [] then none
       else some (trimList ((trimList s).take idx))) ∧
    (TargetSelection.from_env (some s) none).pid =
      parseU32Digits (((trimList s).drop (idx + 5)).filter Char.isDigit) := by
  have hr := rfindIdx_eq_of_last (trimList s) markerPID idx (by decide)
    hpre hlast
  have key : TargetSelection.from_env (some s) none =
      { title := if (trimList ((trimList s).take idx)).isEmpty then none
                 else some (trimList ((trimList s).take idx)),
        pid := parseU32Digits (((trimList s).drop (idx + 5)).filter
          Char.isDigit) } := by
    unfold TargetSelection.from_env
    simp only [Option.map_some', Option.none_bind]
    rw [hr]
    rfl
  constructor
  · rw [key]
    by_cases hemp : trimList ((trimList s).take idx) = []
    · simp [hemp]
    · simp [hemp, List.isEmpty_iff]
  · rw [key]

/-- Witness for C10 on the concrete hint `"a (PID:9)"` (marker at index 2):
title parses to `"a"`, pid to 9. -/
theorem from_env_marker_parsing_witness :
    (markerPID.isPrefixOf ((trimList "a (PID:9)".toList).drop 2) = true) ∧
    ((TargetSelection.from_env (some "a (PID:9)".toList) none).title =
      (if trimList ((trimList "a (PID:9)".toList).take 2) = [] then none
       else some (trimList ((trimList "a (PID:9)".toList).take 2))) ∧
     (TargetSelection.from_env (some "a (PID:9)".toList) none).pid =
      parseU32Digits (((trimList "a (PID:9)".toList).drop (2 + 5)).filter
        Char.isDigit)) :=
  ⟨by decide,
   from_env_marker_parsing "a (PID:9)".toList 2 (by decide) (by
     intro j hj hjn
     have hlen : (trimList "a (PID:9)".toList).length = 9 := by decide
     rw [hlen] at hjn
     interval_cases j <;> decide)⟩

end Buckwheat
